import Mathlib

/-!
Verification of `src/multi_head_attention_3d.py`, a single PyTorch module
implementing 3-D multi-head scaled-dot-product attention with input/output
projections and three resolution modes (SAME, DOWN, UP).

Shallow embedding conventions:
* A tensor is a shape (list of dimension sizes) together with a flat
  row-major list of rational values.  All PyTorch operations used by the
  module are modelled as total or `Option`-valued functions (`none` models
  a shape-mismatch error raised by the tensor runtime).
* Floating-point arithmetic is idealised over `ℚ`.  The two transcendental
  functions the source uses — `exp` inside `torch.softmax` and the square
  root in `(key_filters // num_heads) ** 0.5` — are passed in as explicit
  function parameters (`e` and `sq`); every theorem either holds for all
  (positive) choices of these functions or does not depend on them, so in
  particular it holds for the real exponential and square root.
* The random weight initialisation of the four projections is external to
  the module, so the constructor receives the weight and bias functions as
  parameters.  Convolution weights are indexed as in PyTorch:
  `w out_channel in_channel kz ky kx`.
* Python's `%` raises `ZeroDivisionError` for a zero modulus, and
  `nn.Dropout(p)` raises `ValueError` for `p` outside `[0, 1]`; the
  constructor model reproduces both.
-/

/-- Sum of `f 0 + f 1 + ⋯ + f (n-1)` over `ℚ`. -/
def qsum (n : ℕ) (f : ℕ → ℚ) : ℚ :=
  ((List.range n).map f).sum

/-- Row-major data block of length `n` whose `i`-th element is `f i`. -/
def tdata (n : ℕ) (f : ℕ → ℚ) : List ℚ :=
  (List.range n).map f

/-- A dense tensor: a shape and a flat row-major data list. -/
structure Tensor where
  shape : List ℕ
  data : List ℚ
deriving DecidableEq

/-- Read a rank-5 tensor (logical dims `[B, C, D, H, W]`) at possibly
out-of-range spatial coordinates; out-of-range reads give the zero padding
value used by the convolutions. -/
def inAt5 (t : Tensor) (C D H W : ℕ) (b c : ℕ) (z y x : ℤ) : ℚ :=
  if 0 ≤ z ∧ z < (D : ℤ) ∧ 0 ≤ y ∧ y < (H : ℤ) ∧ 0 ≤ x ∧ x < (W : ℤ) then
    t.data.getD ((((b * C + c) * D + z.toNat) * H + y.toNat) * W + x.toNat) 0
  else 0

/-- Output length of a 1-D convolution: `⌊(d + 2p - k)/s⌋ + 1`. -/
def convOut (d k s p : ℕ) : ℕ :=
  (d + 2 * p - k) / s + 1

/-- `nn.Conv3d(ci, co, kernel_size=k, stride=s, padding=p)` applied to a
rank-5 input `[B, ci, D, H, W]`; `none` models the runtime shape error
(wrong rank, wrong channel count, or kernel larger than the padded input). -/
def conv3d (ci co k s p : ℕ) (w : ℕ → ℕ → ℕ → ℕ → ℕ → ℚ) (bias : ℕ → ℚ)
    (t : Tensor) : Option Tensor :=
  match t.shape with
  | [B, c, D, H, W] =>
    if c = ci ∧ k ≤ D + 2 * p ∧ k ≤ H + 2 * p ∧ k ≤ W + 2 * p then
      some
        { shape := [B, co, convOut D k s p, convOut H k s p, convOut W k s p]
          data :=
            tdata (B * co * (convOut D k s p * (convOut H k s p * convOut W k s p)))
              fun i =>
                let oW := convOut W k s p
                let oH := convOut H k s p
                let oD := convOut D k s p
                let x := i % oW
                let y := i / oW % oH
                let z := i / (oW * oH) % oD
                let cc := i / (oW * oH * oD) % co
                let b := i / (oW * oH * oD * co)
                bias cc +
                  qsum ci fun ic => qsum k fun kz => qsum k fun ky => qsum k fun kx =>
                    w cc ic kz ky kx *
                      inAt5 t c D H W b ic
                        ((z * s + kz : ℕ) - (p : ℤ))
                        ((y * s + ky : ℕ) - (p : ℤ))
                        ((x * s + kx : ℕ) - (p : ℤ)) }
    else none
  | _ => none

/-- `nn.ConvTranspose3d(ci, co, kernel_size=k, stride=s, padding=p)` applied
with an explicit `output_size = (oD, oH, oW)` (as in the UP branch of the
forward pass).  The requested output size must lie in the legal range
`[default, default + s)` where `default = (d-1)*s + k - 2p`, exactly the
check PyTorch performs. -/
def convT3d (ci co k s p oD oH oW : ℕ) (w : ℕ → ℕ → ℕ → ℕ → ℕ → ℚ)
    (bias : ℕ → ℚ) (t : Tensor) : Option Tensor :=
  match t.shape with
  | [B, c, D, H, W] =>
    if c = ci ∧
        ((D - 1) * s + k - 2 * p ≤ oD ∧ oD < (D - 1) * s + k - 2 * p + s) ∧
        ((H - 1) * s + k - 2 * p ≤ oH ∧ oH < (H - 1) * s + k - 2 * p + s) ∧
        ((W - 1) * s + k - 2 * p ≤ oW ∧ oW < (W - 1) * s + k - 2 * p + s) then
      some
        { shape := [B, co, oD, oH, oW]
          data :=
            tdata (B * co * (oD * (oH * oW))) fun i =>
              let x := i % oW
              let y := i / oW % oH
              let z := i / (oW * oH) % oD
              let cc := i / (oW * oH * oD) % co
              let b := i / (oW * oH * oD * co)
              bias cc +
                qsum ci fun ic => qsum k fun kz => qsum k fun ky => qsum k fun kx =>
                  let zz : ℤ := (z + p : ℕ) - (kz : ℤ)
                  let yy : ℤ := (y + p : ℕ) - (ky : ℤ)
                  let xx : ℤ := (x + p : ℕ) - (kx : ℤ)
                  if 0 ≤ zz ∧ zz % s = 0 ∧ zz / s < (D : ℤ) ∧
                      0 ≤ yy ∧ yy % s = 0 ∧ yy / s < (H : ℤ) ∧
                      0 ≤ xx ∧ xx % s = 0 ∧ xx / s < (W : ℤ) then
                    w ic cc kz ky kx *
                      t.data.getD
                        ((((b * c + ic) * D + (zz / s).toNat) * H + (yy / s).toNat) * W
                          + (xx / s).toNat) 0
                  else 0 }
    else none
  | _ => none

/-- `x.view(s)`: reinterpret the flat data under a new shape; fails unless
the element counts agree (the check `torch.view` performs). -/
def tview (t : Tensor) (s : List ℕ) : Option Tensor :=
  if t.shape.prod = s.prod then some { shape := s, data := t.data } else none

/-- `x.permute(0, 2, 3, 4, 1)` on a rank-5 tensor, materialised in row-major
order (PyTorch keeps a strided view; the logical element values agree). -/
def permute02341 (t : Tensor) : Option Tensor :=
  match t.shape with
  | [B, C, D, H, W] =>
    some
      { shape := [B, D, H, W, C]
        data :=
          tdata (B * (D * (H * (W * C)))) fun i =>
            let c := i % C
            let w := i / C % W
            let h := i / (C * W) % H
            let d := i / (C * W * H) % D
            let b := i / (C * W * H * D)
            t.data.getD ((((b * C + c) * D + d) * H + h) * W + w) 0 }
  | _ => none

/-- `x.permute(0, 4, 1, 2, 3)` on a rank-5 tensor. -/
def permute04123 (t : Tensor) : Option Tensor :=
  match t.shape with
  | [a, b, c, d, e] =>
    some
      { shape := [a, e, b, c, d]
        data :=
          tdata (a * (e * (b * (c * d)))) fun i =>
            let j5 := i % d
            let j4 := i / d % c
            let j3 := i / (d * c) % b
            let j2 := i / (d * c * b) % e
            let j1 := i / (d * c * b * e)
            t.data.getD ((((j1 * b + j3) * c + j4) * d + j5) * e + j2) 0 }
  | _ => none

/-- `split_heads` (source lines 107–119): split the last axis of a rank-5
tensor into `(num_heads, channels / num_heads)` via `x.view(...)`.  The
Python `int(channel_num / num_heads)` is floor division. -/
def splitHeads (numHeads : ℕ) (t : Tensor) : Option Tensor :=
  match t.shape with
  | [a, b, c, d, e] => tview t [a, b, c, d, numHeads, e / numHeads]
  | _ => none

/-- `torch.flatten(x, 0, 4)` on a rank-6 tensor: merge the first five axes. -/
def flatten04 (t : Tensor) : Option Tensor :=
  match t.shape with
  | [a, b, c, d, e, f] => tview t [a * b * c * d * e, f]
  | _ => none

/-- `x.transpose(0, 1)` on a rank-2 tensor. -/
def transpose2d (t : Tensor) : Option Tensor :=
  match t.shape with
  | [m, n] =>
    some
      { shape := [n, m]
        data := tdata (n * m) fun i => t.data.getD (i % m * n + i / m) 0 }
  | _ => none

/-- `torch.matmul` on rank-2 tensors; fails unless the inner dimensions
agree. -/
def matmul2d (a b : Tensor) : Option Tensor :=
  match a.shape, b.shape with
  | [m, n], [n2, q] =>
    if n = n2 then
      some
        { shape := [m, q]
          data :=
            tdata (m * q) fun i =>
              qsum n fun l =>
                a.data.getD (i / q * n + l) 0 * b.data.getD (l * q + i % q) 0 }
    else none
  | _, _ => none

/-- `torch.softmax(x, dim=1)` on a rank-2 tensor, with the exponential
passed in as `e` (for the real exponential the max-shifted form PyTorch
evaluates coincides with this direct normalisation).  On other ranks the
tensor is returned unchanged (that case is unreachable in `forward`). -/
def softmax2dWith (e : ℚ → ℚ) (t : Tensor) : Tensor :=
  match t.shape with
  | [m, n] =>
    { shape := [m, n]
      data :=
        tdata (m * n) fun i =>
          e (t.data.getD i 0) / qsum n fun l => e (t.data.getD (i / n * n + l) 0) }
  | _ => t

/-- `nn.Dropout(p)` applied to a tensor.  `r i` is the `i`-th uniform draw
of the pseudo-random source; in training mode element `i` is zeroed when
`r i < p` and otherwise rescaled by `1/(1-p)`; in evaluation mode the
tensor passes through unchanged. -/
def dropoutT (p : ℚ) (training : Bool) (r : ℕ → ℚ) (t : Tensor) : Tensor :=
  { shape := t.shape
    data :=
      tdata t.data.length fun i =>
        if training then
          if r i < p then 0 else t.data.getD i 0 / (1 - p)
        else t.data.getD i 0 }

/-- Elementwise `q / scale` (source line 89). -/
def scaleDiv (s : ℚ) (t : Tensor) : Tensor :=
  { shape := t.shape, data := t.data.map fun x => x / s }

/-- Sum of row `i` of a rank-2 tensor. -/
def rowSum (t : Tensor) (i : ℕ) : ℚ :=
  match t.shape with
  | [_, n] => qsum n fun j => t.data.getD (i * n + j) 0
  | _ => 0

/-- Errors the constructor can raise.  The three `ValueError`s from the
explicit validation code are distinguished from the `ZeroDivisionError`
raised by `key_filters % num_heads` when `num_heads == 0` and from the
`ValueError` raised inside `nn.Dropout` for a probability outside
`[0, 1]`. -/
inductive InitError where
  | zeroDivisionError
  | keyNotDivisible
  | valueNotDivisible
  | badLayerType
  | invalidDropoutProb
deriving DecidableEq

/-- The constructed layer: the configuration, the four projections' weights
and biases, and the stored scale constant. -/
structure MHA where
  in_channel : ℕ
  key_filters : ℕ
  value_filters : ℕ
  output_filters : ℕ
  num_heads : ℕ
  dropout_prob : ℚ
  layer_type : String
  wq : ℕ → ℕ → ℕ → ℕ → ℕ → ℚ
  wk : ℕ → ℕ → ℕ → ℕ → ℕ → ℚ
  wv : ℕ → ℕ → ℕ → ℕ → ℕ → ℚ
  wo : ℕ → ℕ → ℕ → ℕ → ℕ → ℚ
  bq : ℕ → ℚ
  bk : ℕ → ℚ
  bv : ℕ → ℚ
  bo : ℕ → ℚ
  scale : ℚ

/-- `multi_head_attention_3d.__init__` (source lines 7–58).  `sq` is the
square-root function applied by `** 0.5`; the weight and bias functions
stand for the externally-supplied random initialisation.  The stored scale
is `sq` of the Python floor division `key_filters // num_heads`. -/
def init (sq : ℚ → ℚ)
    (wq wk wv wo : ℕ → ℕ → ℕ → ℕ → ℕ → ℚ) (bq bk bv bo : ℕ → ℚ)
    (in_channel key_filters value_filters output_filters num_heads : ℕ)
    (dropout_prob : ℚ) (layer_type : String) : Except InitError MHA :=
  if num_heads = 0 then .error .zeroDivisionError
  else if key_filters % num_heads ≠ 0 then .error .keyNotDivisible
  else if value_filters % num_heads ≠ 0 then .error .valueNotDivisible
  else if layer_type ∉ (["SAME", "DOWN", "UP"] : List String) then .error .badLayerType
  else if dropout_prob < 0 ∨ 1 < dropout_prob then .error .invalidDropoutProb
  else
    .ok
      { in_channel := in_channel
        key_filters := key_filters
        value_filters := value_filters
        output_filters := output_filters
        num_heads := num_heads
        dropout_prob := dropout_prob
        layer_type := layer_type
        wq := wq, wk := wk, wv := wv, wo := wo
        bq := bq, bk := bk, bv := bv, bo := bo
        scale := sq ((key_filters / num_heads : ℕ) : ℚ) }


/-- The query projection as invoked on `forward`'s input (source lines
41–50 select the module at construction time, lines 66–69 invoke it):
a 1×1×1 stride-1 convolution for SAME, a 3×3×3 stride-2 padding-1
convolution for DOWN, and a 3×3×3 stride-2 padding-1 transposed
convolution with explicit `output_size = 2 · (D, H, W)` for UP (line 69
reads `inputs.shape[2] * 2` etc.).  Any other stored type leaves `q`
undefined in the Python code, modelled as `none`. -/
def queryTransform (l : MHA) (t : Tensor) : Option Tensor :=
  if l.layer_type = "SAME" then
    conv3d l.in_channel l.key_filters 1 1 0 l.wq l.bq t
  else if l.layer_type = "DOWN" then
    conv3d l.in_channel l.key_filters 3 2 1 l.wq l.bq t
  else if l.layer_type = "UP" then
    convT3d l.in_channel l.key_filters 3 2 1
      (2 * t.shape.getD 2 0) (2 * t.shape.getD 3 0) (2 * t.shape.getD 4 0)
      l.wq l.bq t
  else none

/-- `self.KeyTransform(inputs)` (source line 72), applied to the original,
unscaled forward input. -/
def keyTransform (l : MHA) (t : Tensor) : Option Tensor :=
  conv3d l.in_channel l.key_filters 1 1 0 l.wk l.bk t

/-- `self.ValueTransform(inputs)` (source line 73), applied to the original,
unscaled forward input. -/
def valueTransform (l : MHA) (t : Tensor) : Option Tensor :=
  conv3d l.in_channel l.value_filters 1 1 0 l.wv l.bv t

/-- The per-tensor pipeline each of q, k, v goes through in source lines
72–86: `permute(0,2,3,4,1)`, `split_heads`, `flatten(0, 4)`.  The source
interleaves the three tensors' pipelines; since each step only reads its
own tensor, grouping per tensor preserves every value. -/
def flatHeads (numHeads : ℕ) (x : Tensor) : Option Tensor :=
  (permute02341 x).bind fun xp => (splitHeads numHeads xp).bind flatten04

/-- Source lines 93–97: softmax over axis 1, dropout, and the weighted sum
`O = A · V`. -/
def attnApply (e : ℚ → ℚ) (l : MHA) (training : Bool) (r : ℕ → ℚ)
    (a0 v : Tensor) : Option Tensor :=
  matmul2d (dropoutT l.dropout_prob training r (softmax2dWith e a0)) v

/-- Source lines 99–103: `O.view(Batch, Dq, Hq, Wq, v.shape[-1] *
num_heads)`, `permute(0, 4, 1, 2, 3)`, and the output convolution. -/
def outputStage (l : MHA) (Batch Dq Hq Wq : ℕ) (v o0 : Tensor) :
    Option Tensor :=
  (v.shape.getLast?).bind fun c =>
  (tview o0 [Batch, Dq, Hq, Wq, c * l.num_heads]).bind fun o1 =>
  (permute04123 o1).bind fun o2 =>
  conv3d l.value_filters l.output_filters 1 1 0 l.wo l.bo o2

/-- `multi_head_attention_3d.forward` (source lines 60–105) as the chain of
tensor operations of the source.  `e` is the exponential used by the
softmax, `training` the module's train/eval flag, and `r` the stream of
uniform draws consumed by the dropout.  `Batch, Dq, Hq, Wq` are read off
the permuted query exactly as in line 76 (`flatHeads` recomputes that
permutation internally; the recomputation is pure). -/
def forward (e : ℚ → ℚ) (l : MHA) (training : Bool) (r : ℕ → ℚ)
    (inputs : Tensor) : Option Tensor :=
  (queryTransform l inputs).bind fun q0 =>
  (keyTransform l inputs).bind fun k0 =>
  (valueTransform l inputs).bind fun v0 =>
  (permute02341 q0).bind fun qp =>
  (flatHeads l.num_heads q0).bind fun q =>
  (flatHeads l.num_heads k0).bind fun k =>
  (flatHeads l.num_heads v0).bind fun v =>
  (transpose2d k).bind fun kt =>
  (matmul2d (scaleDiv l.scale q) kt).bind fun a0 =>
  (attnApply e l training r a0 v).bind fun o0 =>
  outputStage l (qp.shape.getD 0 0) (qp.shape.getD 1 0) (qp.shape.getD 2 0)
    (qp.shape.getD 3 0) v o0

/-- The similarity matrix `A = (q / scale) · kᵀ` of source line 92: the
sub-chain of `forward` that produces the attention logits. -/
def attnLogits (l : MHA) (inputs : Tensor) : Option Tensor :=
  (queryTransform l inputs).bind fun q0 =>
  (keyTransform l inputs).bind fun k0 =>
  (flatHeads l.num_heads q0).bind fun q =>
  (flatHeads l.num_heads k0).bind fun k =>
  (transpose2d k).bind fun kt =>
  matmul2d (scaleDiv l.scale q) kt

/-- The attention weight matrix of source line 93 — softmax of the
similarity matrix, before dropout. -/
def attnWeights (e : ℚ → ℚ) (l : MHA) (inputs : Tensor) : Option Tensor :=
  (attnLogits l inputs).map (softmax2dWith e)

/-- Number of elements of a (rank-2) tensor's softmax image: the number of
pseudo-random draws one dropout application on it consumes. -/
def softLen (t : Tensor) : ℕ :=
  match t.shape with
  | [m, n] => m * n
  | _ => t.data.length

/-- Number of pseudo-random draws one `forward` call's dropout consumes. -/
def numDraws (l : MHA) (t : Tensor) : ℕ :=
  match attnLogits l t with
  | some a => softLen a
  | none => 0

/-- The mutable state a call touches: the layer parameters (read-only) and
the position of the pseudo-random stream. -/
structure LayerState where
  params : MHA
  rngCounter : ℕ

/-- A `forward` call as a state transformer: it reads the parameters,
consumes `numDraws` pseudo-random values from the stream `rs`, and returns
the output tensor. -/
def forwardS (e : ℚ → ℚ) (rs : ℕ → ℚ) (training : Bool) (st : LayerState)
    (t : Tensor) : Option Tensor × LayerState :=
  (forward e st.params training (fun i => rs (st.rngCounter + i)) t,
   { params := st.params, rngCounter := st.rngCounter + numDraws st.params t })

/-- Spatial output size per resolution mode, in the form the specification
states it: unchanged for SAME, `⌊(d + 2·1 − 3)/2⌋ + 1` for DOWN, `2·d` for
UP. -/
def modeDim (lt : String) (d : ℕ) : ℕ :=
  if lt = "SAME" then d
  else if lt = "DOWN" then (d + 2 * 1 - 3) / 2 + 1
  else 2 * d

/-- All-zero convolution weight. -/
def cW0 : ℕ → ℕ → ℕ → ℕ → ℕ → ℚ := fun _ _ _ _ _ => 0

/-- All-one convolution weight. -/
def cW1 : ℕ → ℕ → ℕ → ℕ → ℕ → ℚ := fun _ _ _ _ _ => 1

/-- All-zero bias. -/
def cb0 : ℕ → ℚ := fun _ => 0

/-- Concrete stand-in for the exponential with `e1 0 = exp 0 = 1`; in the
concrete runs below every attention logit is `0`, so `e1` and the real
exponential produce identical attention weights there. -/
def e1 : ℚ → ℚ := fun _ => 1

/-- Concrete stand-in for the square root with `sq1 1 = 1`; in the concrete
layers below it is only applied to `1`. -/
def sq1 : ℚ → ℚ := fun _ => 1

/-- A pseudo-random stream that never drops anything under `p = 0`. -/
def r0 : ℕ → ℚ := fun _ => 0

/-- A second pseudo-random stream, for determinism statements. -/
def rHalf : ℕ → ℚ := fun _ => 1 / 2

/-- A SAME-mode layer with one head, one channel everywhere, dropout 0,
zero query weights and all-one key/value/output weights: exactly what
`init sq1 cW0 cW1 cW1 cW1 cb0 cb0 cb0 cb0 1 1 1 1 1 0 "SAME"` constructs. -/
def lC : MHA :=
  { in_channel := 1, key_filters := 1, value_filters := 1, output_filters := 1
    num_heads := 1, dropout_prob := 0, layer_type := "SAME"
    wq := cW0, wk := cW1, wv := cW1, wo := cW1
    bq := cb0, bk := cb0, bv := cb0, bo := cb0
    scale := sq1 ((1 / 1 : ℕ) : ℚ) }

/-- A DOWN-mode layer with one head and one channel everywhere: exactly
what `init sq1 cW1 cW1 cW1 cW1 cb0 cb0 cb0 cb0 1 1 1 1 1 0 "DOWN"`
constructs. -/
def lDown : MHA :=
  { in_channel := 1, key_filters := 1, value_filters := 1, output_filters := 1
    num_heads := 1, dropout_prob := 0, layer_type := "DOWN"
    wq := cW1, wk := cW1, wv := cW1, wo := cW1
    bq := cb0, bk := cb0, bv := cb0, bo := cb0
    scale := sq1 ((1 / 1 : ℕ) : ℚ) }

/-- Batch-2 input `[2, 1, 1, 1, 1]` with batch element 0 equal to `1` and
batch element 1 equal to `0`. -/
def tIn1 : Tensor := { shape := [2, 1, 1, 1, 1], data := [1, 0] }

/-- Same as `tIn1` in batch element 0, different in batch element 1. -/
def tIn2 : Tensor := { shape := [2, 1, 1, 1, 1], data := [1, 2] }

/-- A `[1, 1, 2, 1, 1]` input (depth 2) for the DOWN-mode run. -/
def tD : Tensor := { shape := [1, 1, 2, 1, 1], data := [1, 1] }

/-- A `[1, 1]` probe tensor for the C5 witness. -/
def tA5 : Tensor := { shape := [1, 1], data := [3] }

/-- A second `[1, 1]` probe tensor for the C5 witness. -/
def tB5 : Tensor := { shape := [1, 1], data := [5] }

/-- The layer `init sq1 cW0 cW0 cW0 cW0 cb0 cb0 cb0 cb0 1 4 4 1 2 0 "SAME"`
constructs (key_filters 4, two heads). -/
def lC5 : MHA :=
  { in_channel := 1, key_filters := 4, value_filters := 4, output_filters := 1
    num_heads := 2, dropout_prob := 0, layer_type := "SAME"
    wq := cW0, wk := cW0, wv := cW0, wo := cW0
    bq := cb0, bk := cb0, bv := cb0, bo := cb0
    scale := sq1 ((4 / 2 : ℕ) : ℚ) }

/-- The concrete attention weight matrix `attnWeights e1 lC tIn1`. -/
def aW7 : Tensor :=
  { shape := [2, 2], data := [1 / 2, 1 / 2, 1 / 2, 1 / 2] }

theorem tdata_length (n : ℕ) (f : ℕ → ℚ) : (tdata n f).length = n := by
  simp [tdata]

theorem tdata_getD (n : ℕ) (f : ℕ → ℚ) (i : ℕ) :
    (tdata n f).getD i 0 = if i < n then f i else 0 := by
  rcases lt_or_le i n with h | h
  · simp [tdata, List.getD_eq_getElem?_getD, List.getElem?_map,
      List.getElem?_range h, h]
  · simp [tdata, List.getD_eq_getElem?_getD, List.getElem?_eq_none,
      h, not_lt.mpr h]

theorem tdata_self (L : List ℚ) : tdata L.length (fun i => L.getD i 0) = L := by
  apply List.ext_getElem
  · simp [tdata]
  · intro i h1 h2
    simp only [tdata, List.getElem_map, List.getElem_range]
    simp [List.getD_eq_getElem?_getD, List.getElem?_eq_getElem h2]

theorem getD_map_div (L : List ℚ) (s : ℚ) (i : ℕ) :
    (L.map fun x => x / s).getD i 0 = L.getD i 0 / s := by
  rcases lt_or_le i L.length with h | h
  · simp [List.getD_eq_getElem?_getD, List.getElem?_map,
      List.getElem?_eq_getElem h]
  · rw [List.getD_eq_getElem?_getD, List.getD_eq_getElem?_getD,
      List.getElem?_eq_none (by simpa using h),
      List.getElem?_eq_none h]
    simp

theorem qsum_congr {n : ℕ} {f g : ℕ → ℚ} (h : ∀ j, j < n → f j = g j) :
    qsum n f = qsum n g := by
  unfold qsum
  congr 1
  apply List.map_congr_left
  intro j hj
  exact h j (List.mem_range.mp hj)

theorem qsum_div (n : ℕ) (f : ℕ → ℚ) (s : ℚ) :
    qsum n (fun i => f i / s) = qsum n f / s := by
  unfold qsum
  induction n with
  | zero => simp
  | succ m ih =>
    rw [List.range_succ]
    simp only [List.map_append, List.sum_append, List.map_cons, List.map_nil,
      List.sum_cons, List.sum_nil]
    rw [ih, add_div]
    ring

theorem qsum_pos {n : ℕ} {f : ℕ → ℚ} (hn : 0 < n) (hf : ∀ i, i < n → 0 < f i) :
    0 < qsum n f := by
  unfold qsum
  apply List.sum_pos
  · intro x hx
    obtain ⟨j, hj, rfl⟩ := List.mem_map.mp hx
    exact hf j (List.mem_range.mp hj)
  · intro h
    rw [List.map_eq_nil_iff] at h
    rw [List.range_eq_nil] at h
    omega

theorem tview_some (t : Tensor) (s : List ℕ) (h : t.shape.prod = s.prod) :
    tview t s = some { shape := s, data := t.data } := by
  simp [tview, h]

theorem conv3d_some (ci co k s p : ℕ) (w : ℕ → ℕ → ℕ → ℕ → ℕ → ℚ)
    (bias : ℕ → ℚ) (t : Tensor) (B c D H W : ℕ)
    (ht : t.shape = [B, c, D, H, W]) (hc : c = ci)
    (hD : k ≤ D + 2 * p) (hH : k ≤ H + 2 * p) (hW : k ≤ W + 2 * p) :
    ∃ u, conv3d ci co k s p w bias t = some u ∧
      u.shape = [B, co, convOut D k s p, convOut H k s p, convOut W k s p] := by
  obtain ⟨sh, da⟩ := t
  subst ht
  simp only [conv3d]
  rw [if_pos ⟨hc, hD, hH, hW⟩]
  exact ⟨_, rfl, rfl⟩

theorem convT3d_some (ci co k s p oD oH oW : ℕ) (w : ℕ → ℕ → ℕ → ℕ → ℕ → ℚ)
    (bias : ℕ → ℚ) (t : Tensor) (B c D H W : ℕ)
    (ht : t.shape = [B, c, D, H, W]) (hc : c = ci)
    (hD : (D - 1) * s + k - 2 * p ≤ oD ∧ oD < (D - 1) * s + k - 2 * p + s)
    (hH : (H - 1) * s + k - 2 * p ≤ oH ∧ oH < (H - 1) * s + k - 2 * p + s)
    (hW : (W - 1) * s + k - 2 * p ≤ oW ∧ oW < (W - 1) * s + k - 2 * p + s) :
    ∃ u, convT3d ci co k s p oD oH oW w bias t = some u ∧
      u.shape = [B, co, oD, oH, oW] := by
  obtain ⟨sh, da⟩ := t
  subst ht
  simp only [convT3d]
  rw [if_pos ⟨hc, hD, hH, hW⟩]
  exact ⟨_, rfl, rfl⟩

theorem permute02341_some (t : Tensor) (B C D H W : ℕ)
    (ht : t.shape = [B, C, D, H, W]) :
    ∃ u, permute02341 t = some u ∧ u.shape = [B, D, H, W, C] := by
  obtain ⟨sh, da⟩ := t
  subst ht
  exact ⟨_, rfl, rfl⟩

theorem permute04123_some (t : Tensor) (a b c d e : ℕ)
    (ht : t.shape = [a, b, c, d, e]) :
    ∃ u, permute04123 t = some u ∧ u.shape = [a, e, b, c, d] := by
  obtain ⟨sh, da⟩ := t
  subst ht
  exact ⟨_, rfl, rfl⟩

theorem splitHeads_some (N : ℕ) (t : Tensor) (a b c d e : ℕ)
    (ht : t.shape = [a, b, c, d, e]) (hdvd : N ∣ e) :
    splitHeads N t = some { shape := [a, b, c, d, N, e / N], data := t.data } := by
  have hprod : t.shape.prod = ([a, b, c, d, N, e / N] : List ℕ).prod := by
    rw [ht]
    simp only [List.prod_cons, List.prod_nil, mul_one]
    rw [Nat.mul_div_cancel' hdvd]
  obtain ⟨sh, da⟩ := t
  subst ht
  simp only [splitHeads]
  exact tview_some _ _ hprod

theorem flatten04_some (t : Tensor) (a b c d e f : ℕ)
    (ht : t.shape = [a, b, c, d, e, f]) :
    flatten04 t = some { shape := [a * b * c * d * e, f], data := t.data } := by
  have hprod : t.shape.prod = ([a * b * c * d * e, f] : List ℕ).prod := by
    rw [ht]
    simp only [List.prod_cons, List.prod_nil]
    ring
  obtain ⟨sh, da⟩ := t
  subst ht
  simp only [flatten04]
  exact tview_some _ _ hprod

theorem transpose2d_some (t : Tensor) (m n : ℕ) (ht : t.shape = [m, n]) :
    ∃ u, transpose2d t = some u ∧ u.shape = [n, m] := by
  obtain ⟨sh, da⟩ := t
  subst ht
  exact ⟨_, rfl, rfl⟩

theorem matmul2d_some (a b : Tensor) (m n q : ℕ)
    (ha : a.shape = [m, n]) (hb : b.shape = [n, q]) :
    ∃ u, matmul2d a b = some u ∧ u.shape = [m, q] := by
  obtain ⟨sa, da⟩ := a
  obtain ⟨sb, db⟩ := b
  subst ha
  subst hb
  simp only [matmul2d, if_true]
  exact ⟨_, rfl, rfl⟩

theorem softmax2dWith_shape (e : ℚ → ℚ) (t : Tensor) :
    (softmax2dWith e t).shape = t.shape := by
  unfold softmax2dWith
  split
  · next m n h => exact h.symm
  · rfl

theorem softmax2dWith_eq (e : ℚ → ℚ) (t : Tensor) (m n : ℕ)
    (ht : t.shape = [m, n]) :
    softmax2dWith e t =
      { shape := [m, n]
        data :=
          tdata (m * n) fun i =>
            e (t.data.getD i 0) /
              qsum n fun l => e (t.data.getD (i / n * n + l) 0) } := by
  obtain ⟨sh, da⟩ := t
  subst ht
  rfl

theorem dropoutT_shape (p : ℚ) (training : Bool) (r : ℕ → ℚ) (t : Tensor) :
    (dropoutT p training r t).shape = t.shape := rfl

theorem dropoutT_length (p : ℚ) (training : Bool) (r : ℕ → ℚ) (t : Tensor) :
    (dropoutT p training r t).data.length = t.data.length := by
  simp [dropoutT, tdata_length]

theorem scaleDiv_shape (s : ℚ) (t : Tensor) : (scaleDiv s t).shape = t.shape := rfl

theorem flatHeads_some (N : ℕ) (t : Tensor) (B C D H W : ℕ)
    (ht : t.shape = [B, C, D, H, W]) (hdvd : N ∣ C) :
    ∃ u, flatHeads N t = some u ∧ u.shape = [B * D * H * W * N, C / N] := by
  obtain ⟨tp, hp, hpshape⟩ := permute02341_some t B C D H W ht
  have hsplit := splitHeads_some N tp B D H W C hpshape hdvd
  have hflat :=
    flatten04_some { shape := [B, D, H, W, N, C / N], data := tp.data }
      B D H W N (C / N) rfl
  refine ⟨{ shape := [B * D * H * W * N, C / N], data := tp.data }, ?_, rfl⟩
  unfold flatHeads
  rw [hp, Option.some_bind, hsplit, Option.some_bind, hflat]

theorem init_ok (sq : ℚ → ℚ) (wq wk wv wo : ℕ → ℕ → ℕ → ℕ → ℕ → ℚ)
    (bq bk bv bo : ℕ → ℚ) (ic kf vf nf N : ℕ) (p : ℚ) (lt : String) (l : MHA)
    (h : init sq wq wk wv wo bq bk bv bo ic kf vf nf N p lt = .ok l) :
    N ≠ 0 ∧ N ∣ kf ∧ N ∣ vf ∧ lt ∈ (["SAME", "DOWN", "UP"] : List String) ∧
      0 ≤ p ∧ p ≤ 1 ∧
      l.in_channel = ic ∧ l.key_filters = kf ∧ l.value_filters = vf ∧
      l.output_filters = nf ∧ l.num_heads = N ∧ l.dropout_prob = p ∧
      l.layer_type = lt ∧ l.wq = wq ∧ l.wk = wk ∧ l.wv = wv ∧ l.wo = wo ∧
      l.bq = bq ∧ l.bk = bk ∧ l.bv = bv ∧ l.bo = bo ∧
      l.scale = sq ((kf / N : ℕ) : ℚ) := by
  unfold init at h
  split_ifs at h with h1 h2 h3 h4 h5
  rw [Except.ok.injEq] at h
  subst h
  push_neg at h2 h3 h4 h5
  exact ⟨h1, Nat.dvd_of_mod_eq_zero h2, Nat.dvd_of_mod_eq_zero h3, h4,
    h5.1, h5.2, rfl, rfl, rfl, rfl, rfl, rfl, rfl, rfl, rfl, rfl, rfl,
    rfl, rfl, rfl, rfl, rfl⟩

theorem dropoutT_eval (p : ℚ) (r : ℕ → ℚ) (t : Tensor) :
    dropoutT p false r t = t := by
  obtain ⟨sh, da⟩ := t
  simp only [dropoutT]
  have hfun :
      (fun i => if false = true then
          (if r i < p then 0 else da.getD i 0 / (1 - p))
        else da.getD i 0) = fun i => da.getD i 0 := by
    funext i
    simp
  rw [hfun, tdata_self]

theorem dropoutT_zero (tr : Bool) (r : ℕ → ℚ) (t : Tensor)
    (hr : ∀ i, 0 ≤ r i) : dropoutT 0 tr r t = t := by
  obtain ⟨sh, da⟩ := t
  simp only [dropoutT]
  have hfun :
      (fun i => if tr = true then
          (if r i < (0 : ℚ) then 0 else da.getD i 0 / (1 - 0))
        else da.getD i 0) = fun i => da.getD i 0 := by
    funext i
    rcases tr with _ | _
    · simp
    · rw [if_pos rfl, if_neg (not_lt.mpr (hr i))]
      norm_num
  rw [hfun, tdata_self]

theorem dropoutT_congr (p : ℚ) (tr : Bool) (r rp : ℕ → ℚ) (t : Tensor)
    (h : ∀ i, i < t.data.length → r i = rp i) :
    dropoutT p tr r t = dropoutT p tr rp t := by
  unfold dropoutT
  congr 1
  unfold tdata
  apply List.map_congr_left
  intro i hi
  rw [h i (List.mem_range.mp hi)]

theorem convOut_k1 (d : ℕ) (hd : 1 ≤ d) : convOut d 1 1 0 = d := by
  unfold convOut
  simp only [Nat.mul_zero, Nat.add_zero, Nat.div_one]
  omega

theorem queryTransform_some (l : MHA) (t : Tensor) (B D H W : ℕ)
    (ht : t.shape = [B, l.in_channel, D, H, W])
    (hD : 1 ≤ D) (hH : 1 ≤ H) (hW : 1 ≤ W)
    (hmem : l.layer_type ∈ (["SAME", "DOWN", "UP"] : List String)) :
    ∃ qT, queryTransform l t = some qT ∧
      qT.shape = [B, l.key_filters, modeDim l.layer_type D,
        modeDim l.layer_type H, modeDim l.layer_type W] ∧
      1 ≤ modeDim l.layer_type D ∧ 1 ≤ modeDim l.layer_type H ∧
      1 ≤ modeDim l.layer_type W := by
  simp only [List.mem_cons, List.not_mem_nil, or_false] at hmem
  rcases hmem with hlt | hlt | hlt
  · obtain ⟨u, hu, hus⟩ :=
      conv3d_some l.in_channel l.key_filters 1 1 0 l.wq l.bq t B l.in_channel
        D H W ht rfl (by omega) (by omega) (by omega)
    refine ⟨u, ?_, ?_, ?_, ?_, ?_⟩
    · simpa [queryTransform, hlt] using hu
    · rw [hus, convOut_k1 D hD, convOut_k1 H hH, convOut_k1 W hW]
      simp [modeDim, hlt]
    · simpa [modeDim, hlt] using hD
    · simpa [modeDim, hlt] using hH
    · simpa [modeDim, hlt] using hW
  · obtain ⟨u, hu, hus⟩ :=
      conv3d_some l.in_channel l.key_filters 3 2 1 l.wq l.bq t B l.in_channel
        D H W ht rfl (by omega) (by omega) (by omega)
    refine ⟨u, ?_, ?_, ?_, ?_, ?_⟩
    · simpa [queryTransform, hlt] using hu
    · rw [hus]
      simp [modeDim, hlt, convOut]
    · simp [modeDim, hlt]
    · simp [modeDim, hlt]
    · simp [modeDim, hlt]
  · have hget2 : t.shape.getD 2 0 = D := by rw [ht]; rfl
    have hget3 : t.shape.getD 3 0 = H := by rw [ht]; rfl
    have hget4 : t.shape.getD 4 0 = W := by rw [ht]; rfl
    obtain ⟨u, hu, hus⟩ :=
      convT3d_some l.in_channel l.key_filters 3 2 1 (2 * D) (2 * H) (2 * W)
        l.wq l.bq t B l.in_channel D H W ht rfl
        (by omega) (by omega) (by omega)
    refine ⟨u, ?_, ?_, ?_, ?_, ?_⟩
    · simp only [queryTransform, hlt]
      simp only [hget2, hget3, hget4]
      simpa using hu
    · rw [hus]
      simp [modeDim, hlt]
    · simp [modeDim, hlt]; omega
    · simp [modeDim, hlt]; omega
    · simp [modeDim, hlt]; omega

theorem forward_shape_aux (e : ℚ → ℚ) (l : MHA) (training : Bool) (r : ℕ → ℚ)
    (t : Tensor) (B D H W : ℕ)
    (ht : t.shape = [B, l.in_channel, D, H, W])
    (hD : 1 ≤ D) (hH : 1 ≤ H) (hW : 1 ≤ W)
    (hmem : l.layer_type ∈ (["SAME", "DOWN", "UP"] : List String))
    (hdk : l.num_heads ∣ l.key_filters) (hdv : l.num_heads ∣ l.value_filters) :
    ∃ O, forward e l training r t = some O ∧
      O.shape = [B, l.output_filters, modeDim l.layer_type D,
        modeDim l.layer_type H, modeDim l.layer_type W] := by
  obtain ⟨q0, hq0, hq0s, hDq, hHq, hWq⟩ :=
    queryTransform_some l t B D H W ht hD hH hW hmem
  obtain ⟨k0, hk0, hk0s⟩ :=
    conv3d_some l.in_channel l.key_filters 1 1 0 l.wk l.bk t B l.in_channel
      D H W ht rfl (by omega) (by omega) (by omega)
  have hk0' : keyTransform l t = some k0 := hk0
  have hk0s' : k0.shape = [B, l.key_filters, D, H, W] := by
    rw [hk0s, convOut_k1 D hD, convOut_k1 H hH, convOut_k1 W hW]
  obtain ⟨v0, hv0, hv0s⟩ :=
    conv3d_some l.in_channel l.value_filters 1 1 0 l.wv l.bv t B l.in_channel
      D H W ht rfl (by omega) (by omega) (by omega)
  have hv0' : valueTransform l t = some v0 := hv0
  have hv0s' : v0.shape = [B, l.value_filters, D, H, W] := by
    rw [hv0s, convOut_k1 D hD, convOut_k1 H hH, convOut_k1 W hW]
  obtain ⟨qp, hqp, hqps⟩ :=
    permute02341_some q0 B l.key_filters (modeDim l.layer_type D)
      (modeDim l.layer_type H) (modeDim l.layer_type W) hq0s
  obtain ⟨qF, hqF, hqFs⟩ :=
    flatHeads_some l.num_heads q0 B l.key_filters (modeDim l.layer_type D)
      (modeDim l.layer_type H) (modeDim l.layer_type W) hq0s hdk
  obtain ⟨kF, hkF, hkFs⟩ :=
    flatHeads_some l.num_heads k0 B l.key_filters D H W hk0s' hdk
  obtain ⟨vF, hvF, hvFs⟩ :=
    flatHeads_some l.num_heads v0 B l.value_filters D H W hv0s' hdv
  obtain ⟨kT, hkT, hkTs⟩ :=
    transpose2d_some kF (B * D * H * W * l.num_heads)
      (l.key_filters / l.num_heads) hkFs
  obtain ⟨a0, ha0, ha0s⟩ :=
    matmul2d_some (scaleDiv l.scale qF) kT
      (B * modeDim l.layer_type D * modeDim l.layer_type H *
        modeDim l.layer_type W * l.num_heads)
      (l.key_filters / l.num_heads) (B * D * H * W * l.num_heads)
      (by rw [scaleDiv_shape]; exact hqFs) hkTs
  have hAshape :
      (dropoutT l.dropout_prob training r (softmax2dWith e a0)).shape =
        [B * modeDim l.layer_type D * modeDim l.layer_type H *
          modeDim l.layer_type W * l.num_heads,
         B * D * H * W * l.num_heads] := by
    rw [dropoutT_shape, softmax2dWith_shape, ha0s]
  obtain ⟨o0, ho0, ho0s⟩ :=
    matmul2d_some (dropoutT l.dropout_prob training r (softmax2dWith e a0)) vF
      (B * modeDim l.layer_type D * modeDim l.layer_type H *
        modeDim l.layer_type W * l.num_heads)
      (B * D * H * W * l.num_heads) (l.value_filters / l.num_heads)
      hAshape hvFs
  have hAttn : attnApply e l training r a0 vF = some o0 := ho0
  have hlast : vF.shape.getLast? = some (l.value_filters / l.num_heads) := by
    rw [hvFs]
    rfl
  have hview :
      tview o0
        [B, modeDim l.layer_type D, modeDim l.layer_type H,
          modeDim l.layer_type W, l.value_filters / l.num_heads * l.num_heads] =
        some
          { shape :=
              [B, modeDim l.layer_type D, modeDim l.layer_type H,
                modeDim l.layer_type W,
                l.value_filters / l.num_heads * l.num_heads]
            data := o0.data } := by
    apply tview_some
    rw [ho0s]
    simp only [List.prod_cons, List.prod_nil]
    ring
  obtain ⟨o2, ho2, ho2s⟩ :=
    permute04123_some
      { shape :=
          [B, modeDim l.layer_type D, modeDim l.layer_type H,
            modeDim l.layer_type W, l.value_filters / l.num_heads * l.num_heads]
        data := o0.data }
      B (modeDim l.layer_type D) (modeDim l.layer_type H)
      (modeDim l.layer_type W) (l.value_filters / l.num_heads * l.num_heads) rfl
  obtain ⟨O, hO, hOs⟩ :=
    conv3d_some l.value_filters l.output_filters 1 1 0 l.wo l.bo o2 B
      (l.value_filters / l.num_heads * l.num_heads) (modeDim l.layer_type D)
      (modeDim l.layer_type H) (modeDim l.layer_type W) ho2s
      (Nat.div_mul_cancel hdv) (by omega) (by omega) (by omega)
  refine ⟨O, ?_, ?_⟩
  · unfold forward
    rw [hq0, Option.some_bind, hk0', Option.some_bind, hv0', Option.some_bind,
      hqp, Option.some_bind, hqF, Option.some_bind, hkF, Option.some_bind,
      hvF, Option.some_bind, hkT, Option.some_bind, ha0, Option.some_bind,
      hAttn, Option.some_bind, hqps]
    show outputStage l B (modeDim l.layer_type D) (modeDim l.layer_type H)
      (modeDim l.layer_type W) vF o0 = some O
    unfold outputStage
    rw [hlast, Option.some_bind, hview, Option.some_bind, ho2,
      Option.some_bind, hO]
  · rw [hOs, convOut_k1 _ hDq, convOut_k1 _ hHq, convOut_k1 _ hWq]

theorem attnLogits_shape_aux (l : MHA) (t : Tensor) (B D H W : ℕ)
    (ht : t.shape = [B, l.in_channel, D, H, W])
    (hD : 1 ≤ D) (hH : 1 ≤ H) (hW : 1 ≤ W)
    (hmem : l.layer_type ∈ (["SAME", "DOWN", "UP"] : List String))
    (hdk : l.num_heads ∣ l.key_filters) :
    ∃ A, attnLogits l t = some A ∧
      A.shape = [B * modeDim l.layer_type D * modeDim l.layer_type H *
        modeDim l.layer_type W * l.num_heads, B * D * H * W * l.num_heads] := by
  obtain ⟨q0, hq0, hq0s, hDq, hHq, hWq⟩ :=
    queryTransform_some l t B D H W ht hD hH hW hmem
  obtain ⟨k0, hk0, hk0s⟩ :=
    conv3d_some l.in_channel l.key_filters 1 1 0 l.wk l.bk t B l.in_channel
      D H W ht rfl (by omega) (by omega) (by omega)
  have hk0' : keyTransform l t = some k0 := hk0
  have hk0s' : k0.shape = [B, l.key_filters, D, H, W] := by
    rw [hk0s, convOut_k1 D hD, convOut_k1 H hH, convOut_k1 W hW]
  obtain ⟨qF, hqF, hqFs⟩ :=
    flatHeads_some l.num_heads q0 B l.key_filters (modeDim l.layer_type D)
      (modeDim l.layer_type H) (modeDim l.layer_type W) hq0s hdk
  obtain ⟨kF, hkF, hkFs⟩ :=
    flatHeads_some l.num_heads k0 B l.key_filters D H W hk0s' hdk
  obtain ⟨kT, hkT, hkTs⟩ :=
    transpose2d_some kF (B * D * H * W * l.num_heads)
      (l.key_filters / l.num_heads) hkFs
  obtain ⟨a0, ha0, ha0s⟩ :=
    matmul2d_some (scaleDiv l.scale qF) kT
      (B * modeDim l.layer_type D * modeDim l.layer_type H *
        modeDim l.layer_type W * l.num_heads)
      (l.key_filters / l.num_heads) (B * D * H * W * l.num_heads)
      (by rw [scaleDiv_shape]; exact hqFs) hkTs
  refine ⟨a0, ?_, ha0s⟩
  unfold attnLogits
  rw [hq0, Option.some_bind, hk0', Option.some_bind, hqF, Option.some_bind,
    hkF, Option.some_bind, hkT, Option.some_bind, ha0]

/-- C3: for every layer successfully constructed by `init` and every
nonempty input of shape `[B, Cin, D, H, W]` with `Cin` equal to the
construction-time `in_channel`, the forward pass returns a tensor of shape
`[B, output_filters, Dq, Hq, Wq]`, where each spatial output dimension is
the input dimension for SAME, `⌊(d + 2·1 − 3)/2⌋ + 1` for DOWN, and `2·d`
for UP (the three cases of `modeDim`). -/
theorem forward_output_shape (sq e : ℚ → ℚ)
    (wq wk wv wo : ℕ → ℕ → ℕ → ℕ → ℕ → ℚ) (bq bk bv bo : ℕ → ℚ)
    (ic kf vf nf N : ℕ) (p : ℚ) (lt : String) (l : MHA) (training : Bool)
    (r : ℕ → ℚ) (t : Tensor) (B D H W : ℕ)
    (hinit : init sq wq wk wv wo bq bk bv bo ic kf vf nf N p lt = .ok l)
    (ht : t.shape = [B, ic, D, H, W]) (hD : 1 ≤ D) (hH : 1 ≤ H)
    (hW : 1 ≤ W) :
    ∃ O, forward e l training r t = some O ∧
      O.shape = [B, nf, modeDim lt D, modeDim lt H, modeDim lt W] := by
  obtain ⟨hN, hdk, hdv, hmem, hp0, hp1, hic, hkf, hvf, hnf, hNh, hdp, hltt,
    hwq, hwk, hwv, hwo, hbq, hbk, hbv, hbo, hscale⟩ :=
    init_ok sq wq wk wv wo bq bk bv bo ic kf vf nf N p lt l hinit
  obtain ⟨O, hO, hOs⟩ :=
    forward_shape_aux e l training r t B D H W (by rw [hic]; exact ht)
      hD hH hW (by rw [hltt]; exact hmem)
      (by rw [hNh, hkf]; exact hdk) (by rw [hNh, hvf]; exact hdv)
  exact ⟨O, hO, by rw [hOs, hnf, hltt]⟩

/-- Witness for C3 at a concrete instance: a SAME-mode layer on a
`[2, 1, 1, 1, 1]` input yields output shape `[2, 1, 1, 1, 1]`. -/
theorem forward_output_shape_witness :
    Option.map Tensor.shape (forward e1 lC false r0 tIn1) =
      some [2, 1, 1, 1, 1] := by
  obtain ⟨O, hO, hOs⟩ :=
    forward_output_shape sq1 e1 cW0 cW1 cW1 cW1 cb0 cb0 cb0 cb0
      1 1 1 1 1 0 "SAME" lC false r0 tIn1 2 1 1 1 rfl rfl
      (by decide) (by decide) (by decide)
  rw [hO, Option.map_some', hOs]
  rfl

/-- C4 counterexample: for a DOWN-mode layer constructed by `init` on an
input with `B = 1, D = 2, H = W = 1, heads = 1` (so `B·D·H·W·heads = 2`),
the forward call succeeds but the similarity/attention matrix has shape
`[1, 2]`, not the square `[2, 2]` the claim asserts for every mode. -/
theorem attn_map_square_counterexample :
    init sq1 cW1 cW1 cW1 cW1 cb0 cb0 cb0 cb0 1 1 1 1 1 0 "DOWN" =
      .ok lDown ∧
    Option.map Tensor.shape (attnLogits lDown tD) = some [1, 2] ∧
    Option.map Tensor.shape (forward e1 lDown false r0 tD) =
      some [1, 1, 1, 1, 1] ∧
    (1 * 2 * 1 * 1 * 1 : ℕ) = 2 ∧ ([1, 2] : List ℕ) ≠ [2, 2] := by
  refine ⟨rfl, by decide, by decide, rfl, by decide⟩

/-- C4 amended: for every constructed layer the similarity/attention
matrix of a forward call has shape `[(B·Dq·Hq·Wq·heads), (B·D·H·W·heads)]`
where `(Dq, Hq, Wq)` are the mode-dependent query spatial dimensions
(`modeDim`); this is square exactly when the query resolution equals the
input resolution, as in SAME mode, but not in general for DOWN or UP. -/
theorem attn_matrix_shape (sq : ℚ → ℚ)
    (wq wk wv wo : ℕ → ℕ → ℕ → ℕ → ℕ → ℚ) (bq bk bv bo : ℕ → ℚ)
    (ic kf vf nf N : ℕ) (p : ℚ) (lt : String) (l : MHA) (t : Tensor)
    (B D H W : ℕ)
    (hinit : init sq wq wk wv wo bq bk bv bo ic kf vf nf N p lt = .ok l)
    (ht : t.shape = [B, ic, D, H, W]) (hD : 1 ≤ D) (hH : 1 ≤ H)
    (hW : 1 ≤ W) :
    ∃ A, attnLogits l t = some A ∧
      A.shape = [B * modeDim lt D * modeDim lt H * modeDim lt W * N,
        B * D * H * W * N] := by
  obtain ⟨hN, hdk, hdv, hmem, hp0, hp1, hic, hkf, hvf, hnf, hNh, hdp, hltt,
    hwq, hwk, hwv, hwo, hbq, hbk, hbv, hbo, hscale⟩ :=
    init_ok sq wq wk wv wo bq bk bv bo ic kf vf nf N p lt l hinit
  obtain ⟨A, hA, hAs⟩ :=
    attnLogits_shape_aux l t B D H W (by rw [hic]; exact ht) hD hH hW
      (by rw [hltt]; exact hmem) (by rw [hNh, hkf]; exact hdk)
  exact ⟨A, hA, by rw [hAs, hNh, hltt]⟩

/-- Witness for the amended C4 at a concrete instance: the SAME-mode layer
`lC` on the batch-2 input gives a `[2, 2]` attention matrix. -/
theorem attn_matrix_shape_witness :
    Option.map Tensor.shape (attnLogits lC tIn1) = some [2, 2] := by
  obtain ⟨A, hA, hAs⟩ :=
    attn_matrix_shape sq1 cW0 cW1 cW1 cW1 cb0 cb0 cb0 cb0
      1 1 1 1 1 0 "SAME" lC tIn1 2 1 1 1 rfl rfl
      (by decide) (by decide) (by decide)
  rw [hA, Option.map_some', hAs]
  rfl

/-- C2 counterexample: the claimed "construction raises ValueError iff one
of the three conditions fails" is violated twice.  With `num_heads = 0`
and `key_filters = value_filters = 0` all three stated conditions hold
(`0 mod 0 = 0` and the mode is legal) yet construction raises
`ZeroDivisionError`; with `dropout_prob = 2` all three conditions hold yet
`nn.Dropout` raises a `ValueError` of its own. -/
theorem init_claimed_conditions_counterexample :
    ((0 : ℕ) % 0 = 0 ∧ (0 : ℕ) % 0 = 0 ∧
      "SAME" ∈ (["SAME", "DOWN", "UP"] : List String) ∧
      init sq1 cW0 cW0 cW0 cW0 cb0 cb0 cb0 cb0 1 0 0 1 0 (1 / 2) "SAME" =
        .error .zeroDivisionError) ∧
    ((4 : ℕ) % 2 = 0 ∧ (4 : ℕ) % 2 = 0 ∧
      "SAME" ∈ (["SAME", "DOWN", "UP"] : List String) ∧
      init sq1 cW0 cW0 cW0 cW0 cb0 cb0 cb0 cb0 1 4 4 1 2 2 "SAME" =
        .error .invalidDropoutProb) :=
  ⟨⟨rfl, rfl, by decide, rfl⟩, ⟨rfl, rfl, by decide, rfl⟩⟩

/-- C2 amended: provided `num_heads ≠ 0` and `0 ≤ dropout_prob ≤ 1`,
construction succeeds iff `key_filters mod num_heads = 0`,
`value_filters mod num_heads = 0`, and the layer type is one of SAME,
DOWN, UP; and the three checks fire in exactly that order: a failing key
check reports the key error regardless of the rest, the value error is
raised only when the key check passed, and the layer-type error only when
both divisibility checks passed. -/
theorem init_validation_characterization (sq : ℚ → ℚ)
    (wq wk wv wo : ℕ → ℕ → ℕ → ℕ → ℕ → ℚ) (bq bk bv bo : ℕ → ℚ)
    (ic kf vf nf N : ℕ) (p : ℚ) (lt : String)
    (hN : N ≠ 0) (hp0 : 0 ≤ p) (hp1 : p ≤ 1) :
    ((∃ l, init sq wq wk wv wo bq bk bv bo ic kf vf nf N p lt = .ok l) ↔
      kf % N = 0 ∧ vf % N = 0 ∧ lt ∈ (["SAME", "DOWN", "UP"] : List String)) ∧
    (kf % N ≠ 0 →
      init sq wq wk wv wo bq bk bv bo ic kf vf nf N p lt =
        .error .keyNotDivisible) ∧
    (kf % N = 0 → vf % N ≠ 0 →
      init sq wq wk wv wo bq bk bv bo ic kf vf nf N p lt =
        .error .valueNotDivisible) ∧
    (kf % N = 0 → vf % N = 0 →
      lt ∉ (["SAME", "DOWN", "UP"] : List String) →
      init sq wq wk wv wo bq bk bv bo ic kf vf nf N p lt =
        .error .badLayerType) := by
  have hdrop : ¬(p < 0 ∨ 1 < p) := by
    push_neg
    exact ⟨hp0, hp1⟩
  refine ⟨⟨?_, ?_⟩, ?_, ?_, ?_⟩
  · rintro ⟨l, hl⟩
    unfold init at hl
    split_ifs at hl with h1 h2 h3 h4
    push_neg at h2 h3 h4
    exact ⟨h2, h3, h4⟩
  · rintro ⟨h2, h3, h4⟩
    unfold init
    rw [if_neg hN, if_neg (by simpa using h2), if_neg (by simpa using h3),
      if_neg (not_not_intro h4), if_neg hdrop]
    exact ⟨_, rfl⟩
  · intro h2
    unfold init
    rw [if_neg hN, if_pos h2]
  · intro h2 h3
    unfold init
    rw [if_neg hN, if_neg (by simpa using h2), if_pos h3]
  · intro h2 h3 h4
    unfold init
    rw [if_neg hN, if_neg (by simpa using h2), if_neg (by simpa using h3),
      if_pos h4]

/-- Witness for the amended C2: `key_filters = 3, num_heads = 2` reports
exactly the key-divisibility error. -/
theorem init_validation_characterization_witness :
    init sq1 cW0 cW0 cW0 cW0 cb0 cb0 cb0 cb0 1 3 2 1 2 0 "SAME" =
      .error .keyNotDivisible :=
  (init_validation_characterization sq1 cW0 cW0 cW0 cW0 cb0 cb0 cb0 cb0
    1 3 2 1 2 0 "SAME" (by decide) (by norm_num) (by norm_num)).2.1
    (by decide)

/-- C10: with `num_heads = 0` construction fails with the
`ZeroDivisionError` raised by the very first modulo check
(`key_filters % num_heads`), for every choice of the other parameters —
in particular it is not one of the documented `ValueError` outcomes and
no validation message is produced. -/
theorem init_zero_heads_zero_division (sq : ℚ → ℚ)
    (wq wk wv wo : ℕ → ℕ → ℕ → ℕ → ℕ → ℚ) (bq bk bv bo : ℕ → ℚ)
    (ic kf vf nf : ℕ) (p : ℚ) (lt : String) :
    init sq wq wk wv wo bq bk bv bo ic kf vf nf 0 p lt =
      .error .zeroDivisionError := by
  unfold init
  rw [if_pos rfl]

/-- C6: for every constructed layer — whatever its resolution mode — and
every nonempty input of the construction-time channel count, the key and
value projections (which `forward` applies directly to the original,
unscaled input tensor) produce tensors of shapes
`[B, key_filters, D, H, W]` and `[B, value_filters, D, H, W]` at the
input resolution. -/
theorem key_value_input_resolution (sq : ℚ → ℚ)
    (wq wk wv wo : ℕ → ℕ → ℕ → ℕ → ℕ → ℚ) (bq bk bv bo : ℕ → ℚ)
    (ic kf vf nf N : ℕ) (p : ℚ) (lt : String) (l : MHA) (t : Tensor)
    (B D H W : ℕ)
    (hinit : init sq wq wk wv wo bq bk bv bo ic kf vf nf N p lt = .ok l)
    (ht : t.shape = [B, ic, D, H, W]) (hD : 1 ≤ D) (hH : 1 ≤ H)
    (hW : 1 ≤ W) :
    ∃ K V, keyTransform l t = some K ∧ K.shape = [B, kf, D, H, W] ∧
      valueTransform l t = some V ∧ V.shape = [B, vf, D, H, W] := by
  obtain ⟨hN, hdk, hdv, hmem, hp0, hp1, hic, hkf, hvf, hnf, hNh, hdp, hltt,
    hwq, hwk, hwv, hwo, hbq, hbk, hbv, hbo, hscale⟩ :=
    init_ok sq wq wk wv wo bq bk bv bo ic kf vf nf N p lt l hinit
  obtain ⟨K, hK, hKs⟩ :=
    conv3d_some l.in_channel l.key_filters 1 1 0 l.wk l.bk t B l.in_channel
      D H W (by rw [hic]; exact ht) rfl (by omega) (by omega) (by omega)
  obtain ⟨V, hV, hVs⟩ :=
    conv3d_some l.in_channel l.value_filters 1 1 0 l.wv l.bv t B l.in_channel
      D H W (by rw [hic]; exact ht) rfl (by omega) (by omega) (by omega)
  refine ⟨K, V, hK, ?_, hV, ?_⟩
  · rw [hKs, convOut_k1 D hD, convOut_k1 H hH, convOut_k1 W hW, hkf]
  · rw [hVs, convOut_k1 D hD, convOut_k1 H hH, convOut_k1 W hW, hvf]

/-- Witness for C6 at a concrete instance: for a DOWN-mode layer (whose
query resolution differs from the input resolution) the key and value
projections still come out at the input resolution `[1, 1, 2, 1, 1]`. -/
theorem key_value_input_resolution_witness :
    Option.map Tensor.shape (keyTransform lDown tD) = some [1, 1, 2, 1, 1] ∧
    Option.map Tensor.shape (valueTransform lDown tD) =
      some [1, 1, 2, 1, 1] := by
  obtain ⟨K, V, hK, hKs, hV, hVs⟩ :=
    key_value_input_resolution sq1 cW1 cW1 cW1 cW1 cb0 cb0 cb0 cb0
      1 1 1 1 1 0 "DOWN" lDown tD 1 2 1 1 rfl rfl
      (by decide) (by decide) (by decide)
  rw [hK, hV, Option.map_some', Option.map_some', hKs, hVs]
  exact ⟨rfl, rfl⟩

theorem matmul2d_scaleDiv (s : ℚ) (a b : Tensor) :
    matmul2d (scaleDiv s a) b = Option.map (scaleDiv s) (matmul2d a b) := by
  obtain ⟨sa, da⟩ := a
  obtain ⟨sb, db⟩ := b
  rcases sa with _ | ⟨m, _ | ⟨n, _ | ⟨x, sa⟩⟩⟩
  · rfl
  · rfl
  · rcases sb with _ | ⟨n2, _ | ⟨q, _ | ⟨y, sb⟩⟩⟩
    · rfl
    · rfl
    · simp only [matmul2d, scaleDiv]
      by_cases h : n = n2
      · subst h
        rw [if_pos rfl, if_pos rfl, Option.map_some']
        rw [Option.some.injEq, Tensor.mk.injEq]
        refine ⟨rfl, ?_⟩
        show tdata (m * q) _ = (tdata (m * q) _).map fun x => x / s
        unfold tdata
        rw [List.map_map]
        apply List.map_congr_left
        intro i hi
        show (qsum n fun l =>
            (List.map (fun x => x / s) da).getD (i / q * n + l) 0 *
              db.getD (l * q + i % q) 0) =
          (qsum n fun l =>
            da.getD (i / q * n + l) 0 * db.getD (l * q + i % q) 0) / s
        rw [← qsum_div]
        apply qsum_congr
        intro l hl
        rw [getD_map_div, div_mul_eq_mul_div]
      · rw [if_neg h, if_neg h]
        rfl
    · rfl
  · rfl

/-- C5: a layer constructed by `init` stores as its scale constant the
square root of `key_filters / num_heads` — by the divisibility
precondition the Python floor division `key_filters // num_heads` agrees
with true division — and dividing the flattened query elementwise by this
constant before the similarity matmul (which is literally what
`attnLogits` and `forward` do via `scaleDiv`) equals dividing every entry
of the similarity matrix `Q′·K′ᵗ` by it. -/
theorem scale_normalization (sq : ℚ → ℚ)
    (wq wk wv wo : ℕ → ℕ → ℕ → ℕ → ℕ → ℚ) (bq bk bv bo : ℕ → ℚ)
    (ic kf vf nf N : ℕ) (p : ℚ) (lt : String) (l : MHA)
    (hinit : init sq wq wk wv wo bq bk bv bo ic kf vf nf N p lt = .ok l) :
    l.scale = sq ((kf : ℚ) / (N : ℚ)) ∧
    ∀ a b : Tensor, matmul2d (scaleDiv l.scale a) b =
      Option.map (scaleDiv l.scale) (matmul2d a b) := by
  obtain ⟨hN, hdk, hdv, hmem, hp0, hp1, hic, hkf, hvf, hnf, hNh, hdp, hltt,
    hwq, hwk, hwv, hwo, hbq, hbk, hbv, hbo, hscale⟩ :=
    init_ok sq wq wk wv wo bq bk bv bo ic kf vf nf N p lt l hinit
  refine ⟨?_, fun a b => matmul2d_scaleDiv l.scale a b⟩
  rw [hscale, Nat.cast_div hdk (Nat.cast_ne_zero.mpr hN)]




/-- Witness for C5 at a concrete instance. -/
theorem scale_normalization_witness :
    lC5.scale = sq1 ((4 : ℚ) / (2 : ℚ)) ∧
    matmul2d (scaleDiv lC5.scale tA5) tB5 =
      Option.map (scaleDiv lC5.scale) (matmul2d tA5 tB5) := by
  have h :=
    scale_normalization sq1 cW0 cW0 cW0 cW0 cb0 cb0 cb0 cb0
      1 4 4 1 2 0 "SAME" lC5 rfl
  exact ⟨h.1, h.2 tA5 tB5⟩

theorem rowSum_eq (t : Tensor) (m n i : ℕ) (ht : t.shape = [m, n]) :
    rowSum t i = qsum n fun j => t.data.getD (i * n + j) 0 := by
  obtain ⟨sh, da⟩ := t
  subst ht
  rfl

/-- C7: in every forward call the attention weight matrix — the softmax
(over axis 1, the key/value axis) of the similarity matrix, taken before
dropout — has rows summing exactly to `1`, for every positive exponential
`e`; exact equality over `ℚ` is the idealisation of "1 within 1e-5". -/
theorem softmax_row_sum_one (e : ℚ → ℚ) (l : MHA) (t A : Tensor) (m n i : ℕ)
    (hA : attnWeights e l t = some A) (hsh : A.shape = [m, n]) (hn : 0 < n)
    (he : ∀ x, 0 < e x) (hi : i < m) : rowSum A i = 1 := by
  obtain ⟨A0, hA0, hAeq⟩ := Option.map_eq_some'.mp hA
  subst hAeq
  have hA0s : A0.shape = [m, n] := by
    rw [← softmax2dWith_shape e A0, hsh]
  rw [softmax2dWith_eq e A0 m n hA0s, rowSum_eq _ m n i rfl]
  have hSpos : 0 < qsum n fun j => e (A0.data.getD (i * n + j) 0) :=
    qsum_pos hn fun j _ => he _
  have hstep : ∀ j, j < n →
      ((tdata (m * n) fun i2 =>
        e (A0.data.getD i2 0) /
          qsum n fun l2 => e (A0.data.getD (i2 / n * n + l2) 0)).getD
          (i * n + j) 0) =
      e (A0.data.getD (i * n + j) 0) /
        qsum n fun j2 => e (A0.data.getD (i * n + j2) 0) := by
    intro j hj
    have hlt : i * n + j < m * n := by
      have h1 : i * n + j < (i + 1) * n := by
        have : (i + 1) * n = i * n + n := by ring
        omega
      exact lt_of_lt_of_le h1 (Nat.mul_le_mul_right n hi)
    have hdiv : (i * n + j) / n = i := by
      have hc : i * n + j = n * i + j := by ring
      rw [hc, Nat.mul_add_div hn, Nat.div_eq_of_lt hj, add_zero]
    simp only [tdata_getD, hlt, if_true]
    rw [hdiv]
  rw [qsum_congr hstep, qsum_div]
  exact div_self (ne_of_gt hSpos)



theorem softmax_zero_logits (e : ℚ → ℚ) (he : e 0 ≠ 0) :
    softmax2dWith e { shape := [2, 2], data := [0, 0, 0, 0] } =
      { shape := [2, 2], data := [1 / 2, 1 / 2, 1 / 2, 1 / 2] } := by
  have h2 : e 0 + e 0 ≠ 0 := by
    intro h
    apply he
    linarith
  have hhalf : e 0 / (e 0 + e 0) = 1 / 2 := by
    rw [div_eq_div_iff h2 (by norm_num)]
    ring
  norm_num [softmax2dWith, tdata, qsum, List.range_succ, hhalf]

theorem attnLogits_lC_tIn1 :
    attnLogits lC tIn1 = some { shape := [2, 2], data := [0, 0, 0, 0] } := by
  norm_num [attnLogits, queryTransform, keyTransform, lC, conv3d, tIn1, convOut,
    tdata, qsum, List.range_succ, cW0, cW1, cb0, inAt5, flatHeads, permute02341,
    splitHeads, flatten04, tview, transpose2d, matmul2d, scaleDiv, sq1,
    Option.some_bind]

/-- Witness for C7 at a concrete instance: row 0 of the concrete attention
matrix sums to 1. -/
theorem softmax_row_sum_one_witness : rowSum aW7 0 = 1 :=
  softmax_row_sum_one e1 lC tIn1 aW7 2 2 0
    (by
      unfold attnWeights
      rw [attnLogits_lC_tIn1, Option.map_some',
        softmax_zero_logits e1 (by norm_num [e1])]
      rfl)
    rfl (by decide) (fun _ => one_pos) (by decide)

theorem forward_lC_tIn1 (e : ℚ → ℚ) (he : e 0 ≠ 0) :
    forward e lC false r0 tIn1 =
      some { shape := [2, 1, 1, 1, 1], data := [1 / 2, 1 / 2] } := by
  have hq : queryTransform lC tIn1 =
      some { shape := [2, 1, 1, 1, 1], data := [0, 0] } := by
    norm_num [queryTransform, lC, conv3d, tIn1, convOut, tdata, qsum,
      List.range_succ, cW0, cb0, inAt5]
  have hk : keyTransform lC tIn1 =
      some { shape := [2, 1, 1, 1, 1], data := [1, 0] } := by
    norm_num [keyTransform, lC, conv3d, tIn1, convOut, tdata, qsum,
      List.range_succ, cW1, cb0, inAt5]
  have hv : valueTransform lC tIn1 =
      some { shape := [2, 1, 1, 1, 1], data := [1, 0] } := by
    norm_num [valueTransform, lC, conv3d, tIn1, convOut, tdata, qsum,
      List.range_succ, cW1, cb0, inAt5]
  have hqp : permute02341 { shape := [2, 1, 1, 1, 1], data := ([0, 0] : List ℚ) } =
      some { shape := [2, 1, 1, 1, 1], data := [0, 0] } := by
    norm_num [permute02341, tdata, List.range_succ]
  have hqF : flatHeads lC.num_heads { shape := [2, 1, 1, 1, 1], data := ([0, 0] : List ℚ) } =
      some { shape := [2, 1], data := [0, 0] } := by
    norm_num [flatHeads, lC, permute02341, splitHeads, flatten04, tview, tdata,
      List.range_succ, Option.some_bind]
  have hkF : flatHeads lC.num_heads { shape := [2, 1, 1, 1, 1], data := ([1, 0] : List ℚ) } =
      some { shape := [2, 1], data := [1, 0] } := by
    norm_num [flatHeads, lC, permute02341, splitHeads, flatten04, tview, tdata,
      List.range_succ, Option.some_bind]
  have hkT : transpose2d { shape := [2, 1], data := ([1, 0] : List ℚ) } =
      some { shape := [1, 2], data := [1, 0] } := by
    norm_num [transpose2d, tdata, List.range_succ]
  have hmm1 : matmul2d (scaleDiv lC.scale { shape := [2, 1], data := ([0, 0] : List ℚ) })
      { shape := [1, 2], data := ([1, 0] : List ℚ) } =
      some { shape := [2, 2], data := [0, 0, 0, 0] } := by
    norm_num [matmul2d, scaleDiv, lC, sq1, tdata, qsum, List.range_succ]
  have hmm2 : matmul2d { shape := [2, 2], data := ([1/2, 1/2, 1/2, 1/2] : List ℚ) }
      { shape := [2, 1], data := ([1, 0] : List ℚ) } =
      some { shape := [2, 1], data := [1 / 2, 1 / 2] } := by
    norm_num [matmul2d, tdata, qsum, List.range_succ]
  have hout : outputStage lC 2 1 1 1 { shape := [2, 1], data := ([1, 0] : List ℚ) }
      { shape := [2, 1], data := ([1/2, 1/2] : List ℚ) } =
      some { shape := [2, 1, 1, 1, 1], data := [1 / 2, 1 / 2] } := by
    norm_num [outputStage, lC, tview, permute04123, conv3d, convOut, tdata, qsum,
      List.range_succ, cW1, cb0, inAt5, Option.some_bind]
  unfold forward attnApply
  simp only [hq, hk, hv, hqp, hqF, hkF, hkT, hmm1, Option.some_bind]
  rw [softmax_zero_logits e he, dropoutT_eval]
  simp only [hmm2, Option.some_bind]
  exact hout

theorem forward_lC_tIn2 (e : ℚ → ℚ) (he : e 0 ≠ 0) :
    forward e lC false r0 tIn2 =
      some { shape := [2, 1, 1, 1, 1], data := [3 / 2, 3 / 2] } := by
  have hq : queryTransform lC tIn2 =
      some { shape := [2, 1, 1, 1, 1], data := [0, 0] } := by
    norm_num [queryTransform, lC, conv3d, tIn2, convOut, tdata, qsum,
      List.range_succ, cW0, cb0, inAt5]
  have hk : keyTransform lC tIn2 =
      some { shape := [2, 1, 1, 1, 1], data := [1, 2] } := by
    norm_num [keyTransform, lC, conv3d, tIn2, convOut, tdata, qsum,
      List.range_succ, cW1, cb0, inAt5]
  have hv : valueTransform lC tIn2 =
      some { shape := [2, 1, 1, 1, 1], data := [1, 2] } := by
    norm_num [valueTransform, lC, conv3d, tIn2, convOut, tdata, qsum,
      List.range_succ, cW1, cb0, inAt5]
  have hqp : permute02341 { shape := [2, 1, 1, 1, 1], data := ([0, 0] : List ℚ) } =
      some { shape := [2, 1, 1, 1, 1], data := [0, 0] } := by
    norm_num [permute02341, tdata, List.range_succ]
  have hqF : flatHeads lC.num_heads { shape := [2, 1, 1, 1, 1], data := ([0, 0] : List ℚ) } =
      some { shape := [2, 1], data := [0, 0] } := by
    norm_num [flatHeads, lC, permute02341, splitHeads, flatten04, tview, tdata,
      List.range_succ, Option.some_bind]
  have hkF : flatHeads lC.num_heads { shape := [2, 1, 1, 1, 1], data := ([1, 2] : List ℚ) } =
      some { shape := [2, 1], data := [1, 2] } := by
    norm_num [flatHeads, lC, permute02341, splitHeads, flatten04, tview, tdata,
      List.range_succ, Option.some_bind]
  have hkT : transpose2d { shape := [2, 1], data := ([1, 2] : List ℚ) } =
      some { shape := [1, 2], data := [1, 2] } := by
    norm_num [transpose2d, tdata, List.range_succ]
  have hmm1 : matmul2d (scaleDiv lC.scale { shape := [2, 1], data := ([0, 0] : List ℚ) })
      { shape := [1, 2], data := ([1, 2] : List ℚ) } =
      some { shape := [2, 2], data := [0, 0, 0, 0] } := by
    norm_num [matmul2d, scaleDiv, lC, sq1, tdata, qsum, List.range_succ]
  have hmm2 : matmul2d { shape := [2, 2], data := ([1/2, 1/2, 1/2, 1/2] : List ℚ) }
      { shape := [2, 1], data := ([1, 2] : List ℚ) } =
      some { shape := [2, 1], data := [3 / 2, 3 / 2] } := by
    norm_num [matmul2d, tdata, qsum, List.range_succ]
  have hout : outputStage lC 2 1 1 1 { shape := [2, 1], data := ([1, 2] : List ℚ) }
      { shape := [2, 1], data := ([3/2, 3/2] : List ℚ) } =
      some { shape := [2, 1, 1, 1, 1], data := [3 / 2, 3 / 2] } := by
    norm_num [outputStage, lC, tview, permute04123, conv3d, convOut, tdata, qsum,
      List.range_succ, cW1, cb0, inAt5, Option.some_bind]
  unfold forward attnApply
  simp only [hq, hk, hv, hqp, hqF, hkF, hkT, hmm1, Option.some_bind]
  rw [softmax_zero_logits e he, dropoutT_eval]
  simp only [hmm2, Option.some_bind]
  exact hout

/-- C1 counterexample: for a SAME-mode layer constructed by `init` (zero
query weights, identity-like key/value/output projections, dropout 0,
evaluation mode) and the two batch-2 inputs `tIn1 = [1, 0]` and
`tIn2 = [1, 2]`, which agree on batch element 0 and differ only in batch
element 1, the outputs at batch element 0 differ (`1/2` versus `3/2`):
because softmax normalises over the flattened batch axis and `A · V`
averages values across the whole batch, output element 0 depends on input
element 1. -/
theorem forward_batch_dependence_counterexample :
    init sq1 cW0 cW1 cW1 cW1 cb0 cb0 cb0 cb0 1 1 1 1 1 0 "SAME" = .ok lC ∧
    tIn1.shape = tIn2.shape ∧
    tIn1.data.getD 0 0 = tIn2.data.getD 0 0 ∧
    forward e1 lC false r0 tIn1 =
      some { shape := [2, 1, 1, 1, 1], data := [1 / 2, 1 / 2] } ∧
    forward e1 lC false r0 tIn2 =
      some { shape := [2, 1, 1, 1, 1], data := [3 / 2, 3 / 2] } ∧
    (1 / 2 : ℚ) ≠ 3 / 2 :=
  ⟨rfl, rfl, rfl, forward_lC_tIn1 e1 (by norm_num [e1]),
    forward_lC_tIn2 e1 (by norm_num [e1]), by norm_num⟩

/-- C1 amended: the forward pass is not batch-independent.  Because the
batch axis is flattened into both attention axes (source lines 84–93),
softmax normalises each query row over the keys of *all* batch elements
and `A · V` mixes values across the batch, so the output for batch
element 0 can change when only batch element 1 of the input changes; this
holds for every positive exponential `e`, hence for the real one. -/
theorem forward_not_batch_independent (e : ℚ → ℚ) (he : 0 < e 0) :
    tIn1.shape = tIn2.shape ∧
    tIn1.data.getD 0 0 = tIn2.data.getD 0 0 ∧
    Option.map (fun u => u.data.getD 0 0) (forward e lC false r0 tIn1) ≠
      Option.map (fun u => u.data.getD 0 0) (forward e lC false r0 tIn2) := by
  refine ⟨rfl, rfl, ?_⟩
  rw [forward_lC_tIn1 e (ne_of_gt he), forward_lC_tIn2 e (ne_of_gt he)]
  intro h
  simp only [Option.map_some', Option.some.injEq] at h
  norm_num [List.getD] at h

/-- Witness for the amended C1, instantiated at the concrete exponential
stand-in `e1`. -/
theorem forward_not_batch_independent_witness :
    Option.map (fun u => u.data.getD 0 0) (forward e1 lC false r0 tIn1) ≠
      Option.map (fun u => u.data.getD 0 0) (forward e1 lC false r0 tIn2) :=
  (forward_not_batch_independent e1 (by norm_num [e1])).2.2

theorem softmax2dWith_length (e : ℚ → ℚ) (t : Tensor) :
    (softmax2dWith e t).data.length = softLen t := by
  obtain ⟨sh, da⟩ := t
  rcases sh with _ | ⟨m, _ | ⟨n, _ | ⟨x, sh⟩⟩⟩
  · rfl
  · rfl
  · simp [softmax2dWith, softLen, tdata_length]
  · rfl

theorem forward_dropout_congr (e : ℚ → ℚ) (l : MHA) (training : Bool)
    (r1 r2 : ℕ → ℚ) (t : Tensor)
    (h : ∀ a1 : Tensor, dropoutT l.dropout_prob training r1 a1 =
      dropoutT l.dropout_prob training r2 a1) :
    forward e l training r1 t = forward e l training r2 t := by
  unfold forward attnApply
  refine Option.bind_congr fun q0 _ => ?_
  refine Option.bind_congr fun k0 _ => ?_
  refine Option.bind_congr fun v0 _ => ?_
  refine Option.bind_congr fun qp _ => ?_
  refine Option.bind_congr fun qF _ => ?_
  refine Option.bind_congr fun kF _ => ?_
  refine Option.bind_congr fun vF _ => ?_
  refine Option.bind_congr fun kT _ => ?_
  refine Option.bind_congr fun a0 _ => ?_
  rw [h (softmax2dWith e a0)]

theorem forward_rng_congr (e : ℚ → ℚ) (l : MHA) (training : Bool)
    (r1 r2 : ℕ → ℚ) (t : Tensor)
    (h : ∀ i, i < numDraws l t → r1 i = r2 i) :
    forward e l training r1 t = forward e l training r2 t := by
  unfold forward attnApply
  refine Option.bind_congr fun q0 hq0 => ?_
  refine Option.bind_congr fun k0 hk0 => ?_
  refine Option.bind_congr fun v0 hv0 => ?_
  refine Option.bind_congr fun qp hqp => ?_
  refine Option.bind_congr fun qF hqF => ?_
  refine Option.bind_congr fun kF hkF => ?_
  refine Option.bind_congr fun vF hvF => ?_
  refine Option.bind_congr fun kT hkT => ?_
  refine Option.bind_congr fun a0 ha0 => ?_
  rw [Option.mem_def] at hq0 hk0 hqF hkF hkT ha0
  have hA : attnLogits l t = some a0 := by
    unfold attnLogits
    rw [hq0, Option.some_bind, hk0, Option.some_bind, hqF, Option.some_bind,
      hkF, Option.some_bind, hkT, Option.some_bind, ha0]
  have hnd : numDraws l t = softLen a0 := by
    unfold numDraws
    rw [hA]
  rw [dropoutT_congr l.dropout_prob training r1 r2 (softmax2dWith e a0)
    (fun i hi => h i (by rw [hnd, ← softmax2dWith_length e a0]; exact hi))]

/-- C8: with dropout probability 0 (and non-negative uniform draws, as a
real pseudo-random source yields) or with the module in evaluation mode,
the forward pass is deterministic: two calls on identical inputs with
different pseudo-random streams return identical outputs. -/
theorem forward_deterministic_no_dropout (e : ℚ → ℚ) (l : MHA)
    (training : Bool) (r1 r2 : ℕ → ℚ) (t : Tensor)
    (h : training = false ∨
      (l.dropout_prob = 0 ∧ (∀ i, 0 ≤ r1 i) ∧ (∀ i, 0 ≤ r2 i))) :
    forward e l training r1 t = forward e l training r2 t := by
  apply forward_dropout_congr
  intro a1
  rcases h with rfl | ⟨hp, h1, h2⟩
  · rw [dropoutT_eval, dropoutT_eval]
  · rw [hp, dropoutT_zero training r1 a1 h1, dropoutT_zero training r2 a1 h2]

/-- Witness for C8 at a concrete instance: two different streams give the
same output in evaluation mode. -/
theorem forward_deterministic_no_dropout_witness :
    forward e1 lC false r0 tIn1 = forward e1 lC false rHalf tIn1 :=
  forward_deterministic_no_dropout e1 lC false r0 rHalf tIn1 (Or.inl rfl)

/-- C9: a `forward` call, seen as a state transformer `forwardS`, leaves
the layer parameters unchanged, advances only the pseudo-random stream
position (by the `numDraws` dropout draws it consumes), and its output is
a pure function of the parameters, the input tensor, and exactly those
consumed draws: two streams agreeing on the consumed window give the same
output.  The input tensor is untouched — `forward` is a function of it. -/
theorem forwardS_frame (e : ℚ → ℚ) (rs rs2 : ℕ → ℚ) (training : Bool)
    (st : LayerState) (t : Tensor) :
    (forwardS e rs training st t).2.params = st.params ∧
    (forwardS e rs training st t).2.rngCounter =
      st.rngCounter + numDraws st.params t ∧
    (forwardS e rs training st t).1 =
      forward e st.params training (fun i => rs (st.rngCounter + i)) t ∧
    ((∀ i, i < numDraws st.params t →
        rs (st.rngCounter + i) = rs2 (st.rngCounter + i)) →
      (forwardS e rs training st t).1 = (forwardS e rs2 training st t).1) :=
  ⟨rfl, rfl, rfl, fun h => forward_rng_congr e st.params training _ _ t h⟩

/-- Witness for C9 at a concrete instance. -/
theorem forwardS_frame_witness :
    (forwardS e1 r0 false { params := lC, rngCounter := 0 } tIn1).2.params =
      lC :=
  (forwardS_frame e1 r0 rHalf false { params := lC, rngCounter := 0 } tIn1).1
